import Mathlib

/-!
Verification of the crypto-cli-tool command-line client (src/main.rs).

The program issues HTTP GET requests against a fixed market-data API,
decodes the JSON bodies with serde into four fixed record shapes, and
prints formatted text. We give a shallow embedding:

* JSON bodies are modelled as already-parsed `Json` trees; a JSON number
  is carried as an exact rational (every JSON numeral denotes one).
* The serde-derived deserializers are modelled by explicit decoders
  returning `Except String _`; a missing required field or a field of
  the wrong type is a decode error, unknown fields are ignored
  (serde default).
* Rust `f64` prices are modelled by `F64`: either a numeric value or
  `nan`, with IEEE-754 comparison semantics (every comparison against
  `nan` is false). A JSON body can only decode to numeric values.
* The network is an environment `net : String → FetchResult` mapping a
  URL to either a transport failure or a body; each command handler is
  a function of `net` returning an `Outcome`: the list of URLs it
  requested in order, the list of lines it printed after the banner,
  and the error it propagated to `main` (if any). `main` turns a
  propagated error into a non-zero process exit code.
Each `OutLine` constructor corresponds to one `println!` of the source,
carrying exactly the values the source interpolates; fixed text lines
are carried verbatim as `OutLine.text`.
-/

/-- A parsed JSON value. Numbers are exact rationals. -/
inductive Json where
  | null
  | bool (b : Bool)
  | num (q : ℚ)
  | str (s : String)
  | arr (elems : List Json)
  | obj (fields : List (String × Json))

/-- Model of a Rust `f64` value as far as this program observes it:
a numeric value (ordered like the rational it denotes) or the
non-comparable `nan`. -/
inductive F64 where
  | nan
  | num (q : ℚ)
deriving DecidableEq

/-- IEEE-754 `<` on doubles: false whenever either side is `nan`. -/
def F64.lt : F64 → F64 → Bool
  | .num a, .num b => decide (a < b)
  | _, _ => false

/-- IEEE-754 `>` on doubles: false whenever either side is `nan`. -/
def F64.gt : F64 → F64 → Bool
  | .num a, .num b => decide (b < a)
  | _, _ => false

/-- `struct Coin { id, name, symbol, rank }` (one entry of the list
response). -/
structure Coin where
  id : String
  name : String
  symbol : String
  rank : Nat
deriving DecidableEq

/-- `struct CoinDetail { id, name, symbol, description, rank }`. -/
structure CoinDetail where
  id : String
  name : String
  symbol : String
  description : String
  rank : Nat
deriving DecidableEq

/-- `struct MarketQuote { price: f64 }`. -/
structure MarketQuote where
  price : F64
deriving DecidableEq

/-- `struct TickerResponse { id, name, symbol, rank, quotes }`. The
`HashMap<String, MarketQuote>` is modelled as an association list in
which each key occurs at most once (serde builds it by repeated insert,
a later duplicate key overwriting the earlier entry). -/
structure TickerResponse where
  id : String
  name : String
  symbol : String
  rank : Nat
  quotes : List (String × MarketQuote)
deriving DecidableEq

/-- First value bound to `k` among the fields of a JSON object. -/
def getField? (fs : List (String × Json)) (k : String) : Option Json :=
  (fs.find? (fun p => p.1 = k)).map (fun p => p.2)

/-- Require the field `k` of a JSON object, as serde does for a
required struct field. -/
def reqField (fs : List (String × Json)) (k : String) : Except String Json :=
  match getField? fs k with
  | some v => Except.ok v
  | none => Except.error ("missing field " ++ k)

/-- Decode a JSON value as a Rust `String`. -/
def decodeString : Json → Except String String
  | .str s => Except.ok s
  | _ => Except.error "invalid type: expected a string"

/-- Decode a JSON value as a Rust `u32` (serde: an integral number in
range). -/
def decodeU32 : Json → Except String Nat
  | .num q =>
      if q.den = 1 ∧ 0 ≤ q.num ∧ q.num < 4294967296 then
        Except.ok q.num.toNat
      else
        Except.error "invalid value: expected u32"
  | _ => Except.error "invalid type: expected u32"

/-- Decode a JSON value as a Rust `f64`. Every JSON number is accepted;
`nan` cannot be produced, since JSON has no such numeral. -/
def decodeF64 : Json → Except String F64
  | .num q => Except.ok (F64.num q)
  | _ => Except.error "invalid type: expected f64"

/-- Deserializer derived for `Coin`. -/
def decodeCoin : Json → Except String Coin
  | .obj fs => do
      let i ← reqField fs "id" >>= decodeString
      let n ← reqField fs "name" >>= decodeString
      let s ← reqField fs "symbol" >>= decodeString
      let r ← reqField fs "rank" >>= decodeU32
      Except.ok ⟨i, n, s, r⟩
  | _ => Except.error "invalid type: expected a map"

/-- Deserializer for `Vec<Coin>`. -/
def decodeCoinList : Json → Except String (List Coin)
  | .arr xs => xs.mapM decodeCoin
  | _ => Except.error "invalid type: expected a sequence"

/-- Deserializer derived for `CoinDetail`. -/
def decodeCoinDetail : Json → Except String CoinDetail
  | .obj fs => do
      let i ← reqField fs "id" >>= decodeString
      let n ← reqField fs "name" >>= decodeString
      let s ← reqField fs "symbol" >>= decodeString
      let d ← reqField fs "description" >>= decodeString
      let r ← reqField fs "rank" >>= decodeU32
      Except.ok ⟨i, n, s, d, r⟩
  | _ => Except.error "invalid type: expected a map"

/-- Deserializer derived for `MarketQuote`. -/
def decodeQuote : Json → Except String MarketQuote
  | .obj fs => do
      let p ← reqField fs "price" >>= decodeF64
      Except.ok ⟨p⟩
  | _ => Except.error "invalid type: expected a map"

/-- Insert into the association list modelling the `HashMap`,
overwriting an existing binding of the same key. -/
def insertQuote (m : List (String × MarketQuote)) (k : String) (v : MarketQuote) :
    List (String × MarketQuote) :=
  if m.any (fun p => p.1 = k) then
    m.map (fun p => if p.1 = k then (k, v) else p)
  else
    m ++ [(k, v)]

/-- `HashMap::get`. -/
def hmGet (m : List (String × MarketQuote)) (k : String) : Option MarketQuote :=
  (m.find? (fun p => p.1 = k)).map (fun p => p.2)

/-- Deserializer for `HashMap<String, MarketQuote>`: decode each object
entry as a `MarketQuote` and insert it. -/
def decodeQuotes : Json → Except String (List (String × MarketQuote))
  | .obj fs =>
      fs.foldlM
        (fun m p => (decodeQuote p.2).map (fun q => insertQuote m p.1 q)) []
  | _ => Except.error "invalid type: expected a map"

/-- Deserializer derived for `TickerResponse`. -/
def decodeTicker : Json → Except String TickerResponse
  | .obj fs => do
      let i ← reqField fs "id" >>= decodeString
      let n ← reqField fs "name" >>= decodeString
      let s ← reqField fs "symbol" >>= decodeString
      let r ← reqField fs "rank" >>= decodeU32
      let qj ← reqField fs "quotes"
      let qs ← decodeQuotes qj
      Except.ok ⟨i, n, s, r, qs⟩
  | _ => Except.error "invalid type: expected a map"

/-- Model of `str::to_uppercase` (agrees with it on the ASCII currency
codes this program is given): uppercase every character. -/
def to_uppercase (s : String) : String := String.mk (s.data.map Char.toUpper)

/-- URL of `GET /v1/coins`. -/
def coinsUrl : String := "https://api.coinpaprika.com/v1/coins"

/-- URL of `GET /v1/coins/{id}` for a coin id. -/
def coinUrl (coin_id : String) : String :=
  "https://api.coinpaprika.com/v1/coins/" ++ coin_id

/-- URL of `GET /v1/tickers/{id}` for a coin id. -/
def tickerUrl (coin_id : String) : String :=
  "https://api.coinpaprika.com/v1/tickers/" ++ coin_id

/-- Result of one `reqwest::get(url).await`: a transport failure, or a
response body (already parsed into a JSON tree). -/
inductive FetchResult where
  | transportFailure
  | ok (body : Json)

/-- The errors a command propagates to `main` (each makes `main` return
`Err`, hence a non-zero exit). `priceNotFound` carries the values the
source interpolates into its error string. -/
inductive CliError where
  | transportFailure
  | decodeFailure (msg : String)
  | priceNotFound (coin_id currency : String)
deriving DecidableEq

/-- One printed line. Each constructor is one `println!` of the source,
carrying the interpolated values; `text` carries a fixed line verbatim.
The format strings are:
* `coinListEntry`: the body of `"{} ({}) - Rank: {}"` (built below by
  `fmtCoinLine`, kept as `text`);
* `detailsFor`: `"        Coin Details for {} ({})        "`;
* `detailsBody`: `"Name: {}\nSymbol: {}\nDescription: {}\nRank: {}"`;
* `priceFor`: `"       Price for {} ({}) in {}        "`;
* `priceIs`: `"1 {} ({}) = {} {}"`;
* `priceNotFound`: `"Could not find price information for {} in {}"`;
* `compareHeader`: `"  Comparing {} and {} in {} Currency  "`;
* `coinPriceLine`: `"{} price: {} {}"`;
* `moreValuable`: `"{} is more valuable than {} in {}"`;
* `sameValue`: `"Both {} and {} have the same value in {}"`. -/
inductive OutLine where
  | text (s : String)
  | detailsFor (name symbol : String)
  | detailsBody (name symbol description : String) (rank : Nat)
  | priceFor (name symbol currency : String)
  | priceIs (name symbol : String) (price : F64) (currency : String)
  | priceNotFound (name currency : String)
  | compareHeader (coin1_id coin2_id currency : String)
  | coinPriceLine (coin_id : String) (price : F64) (currency : String)
  | moreValuable (winner loser currency : String)
  | sameValue (coin1_id coin2_id currency : String)
deriving DecidableEq

/-- What one command invocation did: the URLs it fetched in order, the
lines it printed (after the fixed banner), and the error it returned to
`main`, if any. -/
structure Outcome where
  requests : List String
  lines : List OutLine
  err : Option CliError
deriving DecidableEq

/-- Exit code of the process after `main` ran one command: `Ok(())`
exits 0, a propagated error exits non-zero. -/
def exitCode (o : Outcome) : Nat :=
  match o.err with
  | none => 0
  | some _ => 1

/-- The line `list_coins` prints for one coin:
`"{} ({}) - Rank: {}"` with `coin.name, coin.symbol, coin.rank`
(`u32` renders in decimal, as `Nat` does here). -/
def fmtCoinLine (c : Coin) : String :=
  c.name ++ " (" ++ c.symbol ++ ") - Rank: " ++ toString c.rank

/-- The three fixed header lines `list_coins` prints before the loop. -/
def listHeader : List OutLine :=
  [OutLine.text "=======================================",
   OutLine.text "          Listing All Coins            ",
   OutLine.text "=======================================\n"]

/-- `async fn list_coins()`: fetch the list endpoint, decode as
`Vec<Coin>`, then print the header and one line per coin. The fetch and
decode precede every `println!`, so a failure prints nothing. -/
def list_coins (net : String → FetchResult) : Outcome :=
  match net coinsUrl with
  | .transportFailure => ⟨[coinsUrl], [], some CliError.transportFailure⟩
  | .ok body =>
    match decodeCoinList body with
    | .error e => ⟨[coinsUrl], [], some (CliError.decodeFailure e)⟩
    | .ok coins =>
        ⟨[coinsUrl],
         listHeader ++ coins.map (fun c => OutLine.text (fmtCoinLine c)),
         none⟩

/-- `async fn get_coin_details(coin_id)`. -/
def get_coin_details (net : String → FetchResult) (coin_id : String) : Outcome :=
  match net (coinUrl coin_id) with
  | .transportFailure => ⟨[coinUrl coin_id], [], some CliError.transportFailure⟩
  | .ok body =>
    match decodeCoinDetail body with
    | .error e => ⟨[coinUrl coin_id], [], some (CliError.decodeFailure e)⟩
    | .ok d =>
        ⟨[coinUrl coin_id],
         [OutLine.text "\n=======================================",
          OutLine.detailsFor d.name d.symbol,
          OutLine.text "=======================================\n",
          OutLine.detailsBody d.name d.symbol d.description d.rank],
         none⟩

/-- `async fn get_coin_price(coin_id, target_currency)`: fetch the
ticker, decode, uppercase the currency, print the header, then either
the price line or the not-found line; the lookup miss is not an error. -/
def get_coin_price (net : String → FetchResult) (coin_id target_currency : String) :
    Outcome :=
  match net (tickerUrl coin_id) with
  | .transportFailure => ⟨[tickerUrl coin_id], [], some CliError.transportFailure⟩
  | .ok body =>
    match decodeTicker body with
    | .error e => ⟨[tickerUrl coin_id], [], some (CliError.decodeFailure e)⟩
    | .ok t =>
        let cur := to_uppercase target_currency
        let header :=
          [OutLine.text "\n=======================================",
           OutLine.priceFor t.name t.symbol cur,
           OutLine.text "=======================================\n"]
        match hmGet t.quotes cur with
        | some q =>
            ⟨[tickerUrl coin_id],
             header ++ [OutLine.priceIs t.name t.symbol q.price cur], none⟩
        | none =>
            ⟨[tickerUrl coin_id],
             header ++ [OutLine.priceNotFound t.name cur], none⟩

/-- `async fn get_coin_price_value(coin_id, target_currency)`: fetch
and decode the ticker, look the uppercased currency up, return the
price, or an error when the currency is absent. Also returns the URLs
it requested. -/
def get_coin_price_value (net : String → FetchResult) (coin_id target_currency : String) :
    List String × Except CliError F64 :=
  match net (tickerUrl coin_id) with
  | .transportFailure =>
      ([tickerUrl coin_id], Except.error CliError.transportFailure)
  | .ok body =>
    match decodeTicker body with
    | .error e =>
        ([tickerUrl coin_id], Except.error (CliError.decodeFailure e))
    | .ok t =>
        match hmGet t.quotes (to_uppercase target_currency) with
        | some q => ([tickerUrl coin_id], Except.ok q.price)
        | none =>
            ([tickerUrl coin_id],
             Except.error
               (CliError.priceNotFound coin_id (to_uppercase target_currency)))

/-- The three-way comparison at the end of `compare_coin_prices`:
`if coin1_price > coin2_price { .. } else if coin1_price < coin2_price
{ .. } else { .. }`, with `f64` comparison semantics. -/
def conclusionLine (coin1_id coin2_id currency : String) (p1 p2 : F64) : OutLine :=
  if F64.gt p1 p2 then OutLine.moreValuable coin1_id coin2_id currency
  else if F64.lt p1 p2 then OutLine.moreValuable coin2_id coin1_id currency
  else OutLine.sameValue coin1_id coin2_id currency

/-- `async fn compare_coin_prices(coin1_id, coin2_id, target_currency)`:
obtain both prices sequentially (each `?` aborts, so the second fetch
happens only after the first succeeded), then print the header, the two
per-coin price lines, and the conclusion. -/
def compare_coin_prices (net : String → FetchResult)
    (coin1_id coin2_id target_currency : String) : Outcome :=
  match get_coin_price_value net coin1_id target_currency with
  | (r1, .error e) => ⟨r1, [], some e⟩
  | (r1, .ok p1) =>
    match get_coin_price_value net coin2_id target_currency with
    | (r2, .error e) => ⟨r1 ++ r2, [], some e⟩
    | (r2, .ok p2) =>
        let cur := to_uppercase target_currency
        ⟨r1 ++ r2,
         [OutLine.text "\n=======================================",
          OutLine.compareHeader coin1_id coin2_id cur,
          OutLine.text "=======================================\n",
          OutLine.coinPriceLine coin1_id p1 cur,
          OutLine.coinPriceLine coin2_id p2 cur,
          conclusionLine coin1_id coin2_id cur p1 p2],
         none⟩

/-- True of the two conclusion messages of `compare_coin_prices`. -/
def isConclusion : OutLine → Bool
  | .moreValuable _ _ _ => true
  | .sameValue _ _ _ => true
  | _ => false

/-- The ticker fetched for a coin id decodes, but its quotes map lacks
the uppercased requested currency. -/
def currencyMissingFor (net : String → FetchResult) (coin_id target_currency : String) :
    Prop :=
  ∃ b t, net (tickerUrl coin_id) = FetchResult.ok b ∧
    decodeTicker b = Except.ok t ∧
    hmGet t.quotes (to_uppercase target_currency) = none

/-- The character sequence `xs` occurs contiguously inside `ys`. -/
def infixOf (xs ys : List Char) : Prop := ∃ as bs, ys = as ++ xs ++ bs

/-- Concrete ticker body: `btc-bitcoin` quoted at 50000 USD. -/
def btcTickerJson : Json :=
  Json.obj
    [("id", Json.str "btc-bitcoin"),
     ("name", Json.str "Bitcoin"),
     ("symbol", Json.str "BTC"),
     ("rank", Json.num 1),
     ("quotes", Json.obj [("USD", Json.obj [("price", Json.num 50000)])])]

/-- The record `btcTickerJson` decodes to. -/
def btcTicker : TickerResponse :=
  ⟨"btc-bitcoin", "Bitcoin", "BTC", 1, [("USD", ⟨F64.num 50000⟩)]⟩

/-- Concrete ticker body: `eth-ethereum` quoted at 3000 USD. -/
def ethTickerJson : Json :=
  Json.obj
    [("id", Json.str "eth-ethereum"),
     ("name", Json.str "Ethereum"),
     ("symbol", Json.str "ETH"),
     ("rank", Json.num 2),
     ("quotes", Json.obj [("USD", Json.obj [("price", Json.num 3000)])])]

/-- Network answering every URL with the bitcoin ticker body. -/
def netBtc : String → FetchResult := fun _ => FetchResult.ok btcTickerJson

/-- Network answering the bitcoin ticker URL with the bitcoin body and
every other URL with the ethereum body. -/
def netPair : String → FetchResult := fun url =>
  if url = tickerUrl "btc-bitcoin" then FetchResult.ok btcTickerJson
  else FetchResult.ok ethTickerJson

/-- Network on which every request fails at the transport layer. -/
def netDown : String → FetchResult := fun _ => FetchResult.transportFailure

/-- Concrete list body with two coin records. -/
def coinsBodyW : Json :=
  Json.arr
    [Json.obj
       [("id", Json.str "btc-bitcoin"), ("name", Json.str "Bitcoin"),
        ("symbol", Json.str "BTC"), ("rank", Json.num 1)],
     Json.obj
       [("id", Json.str "eth-ethereum"), ("name", Json.str "Ethereum"),
        ("symbol", Json.str "ETH"), ("rank", Json.num 2)]]

/-- Network answering every URL with the two-coin list body. -/
def netList : String → FetchResult := fun _ => FetchResult.ok coinsBodyW

/-- A coin record missing the required `rank` field. -/
def coinNoRankJson : Json :=
  Json.obj
    [("id", Json.str "btc-bitcoin"), ("name", Json.str "Bitcoin"),
     ("symbol", Json.str "BTC"), ("description", Json.str "d")]

/-- Network whose list body is a one-element array of the rank-less
record, and whose every other body is that record itself. -/
def netBad : String → FetchResult := fun url =>
  if url = coinsUrl then FetchResult.ok (Json.arr [coinNoRankJson])
  else FetchResult.ok coinNoRankJson

/-! Helper lemmas shared by the claim theorems. -/

/-- The helper always requests exactly the ticker URL of its coin. -/
theorem gv_requests (net : String → FetchResult) (coin_id target_currency : String) :
    (get_coin_price_value net coin_id target_currency).1 = [tickerUrl coin_id] := by
  unfold get_coin_price_value
  split
  · rfl
  · split
    · rfl
    · split <;> rfl

/-- When the currency is missing from a decodable ticker, the helper
returns the `priceNotFound` error. -/
theorem gv_of_missing (net : String → FetchResult) (coin_id target_currency : String)
    (h : currencyMissingFor net coin_id target_currency) :
    get_coin_price_value net coin_id target_currency =
      ([tickerUrl coin_id],
       Except.error (CliError.priceNotFound coin_id (to_uppercase target_currency))) := by
  obtain ⟨b, t, hb, ht, hq⟩ := h
  unfold get_coin_price_value
  rw [hb]
  simp only [ht, hq]

/-- A failed first price lookup makes the whole comparison fail with
that error, printing nothing. -/
theorem compare_err1 (net : String → FetchResult)
    (coin1_id coin2_id target_currency : String) (r : List String) (e : CliError)
    (h : get_coin_price_value net coin1_id target_currency = (r, Except.error e)) :
    compare_coin_prices net coin1_id coin2_id target_currency = ⟨r, [], some e⟩ := by
  unfold compare_coin_prices
  rw [h]

/-- A failed second price lookup makes the whole comparison fail with
that error, printing nothing. -/
theorem compare_err2 (net : String → FetchResult)
    (coin1_id coin2_id target_currency : String)
    (r1 r2 : List String) (p1 : F64) (e : CliError)
    (h1 : get_coin_price_value net coin1_id target_currency = (r1, Except.ok p1))
    (h2 : get_coin_price_value net coin2_id target_currency = (r2, Except.error e)) :
    compare_coin_prices net coin1_id coin2_id target_currency = ⟨r1 ++ r2, [], some e⟩ := by
  unfold compare_coin_prices
  rw [h1, h2]

/-- When both price lookups succeed, the comparison prints its header,
both per-coin price lines, and the conclusion. -/
theorem compare_ok (net : String → FetchResult)
    (coin1_id coin2_id target_currency : String)
    (r1 r2 : List String) (p1 p2 : F64)
    (h1 : get_coin_price_value net coin1_id target_currency = (r1, Except.ok p1))
    (h2 : get_coin_price_value net coin2_id target_currency = (r2, Except.ok p2)) :
    compare_coin_prices net coin1_id coin2_id target_currency =
      ⟨r1 ++ r2,
       [OutLine.text "\n=======================================",
        OutLine.compareHeader coin1_id coin2_id (to_uppercase target_currency),
        OutLine.text "=======================================\n",
        OutLine.coinPriceLine coin1_id p1 (to_uppercase target_currency),
        OutLine.coinPriceLine coin2_id p2 (to_uppercase target_currency),
        conclusionLine coin1_id coin2_id (to_uppercase target_currency) p1 p2],
       none⟩ := by
  unfold compare_coin_prices
  rw [h1, h2]

/-- The three-way comparison yields one of the three concrete
messages, whatever the two prices are. -/
theorem conclusionLine_cases (coin1_id coin2_id currency : String) (p1 p2 : F64) :
    conclusionLine coin1_id coin2_id currency p1 p2 =
        OutLine.moreValuable coin1_id coin2_id currency ∨
    conclusionLine coin1_id coin2_id currency p1 p2 =
        OutLine.moreValuable coin2_id coin1_id currency ∨
    conclusionLine coin1_id coin2_id currency p1 p2 =
        OutLine.sameValue coin1_id coin2_id currency := by
  unfold conclusionLine
  by_cases hgt : F64.gt p1 p2 = true
  · simp [hgt]
  · by_cases hlt : F64.lt p1 p2 = true
    · simp [hgt, hlt]
    · simp [hgt, hlt]

/-- The three-way comparison always yields one of the two conclusion
messages, whatever the two prices are. -/
theorem isConclusion_conclusionLine (coin1_id coin2_id currency : String) (p1 p2 : F64) :
    isConclusion (conclusionLine coin1_id coin2_id currency p1 p2) = true := by
  unfold conclusionLine
  by_cases hgt : F64.gt p1 p2 = true
  · simp [hgt, isConclusion]
  · by_cases hlt : F64.lt p1 p2 = true
    · simp [hgt, hlt, isConclusion]
    · simp [hgt, hlt, isConclusion]

/-- C5: for every well-formed list response, ListCoins prints exactly
one output line per entry of the array, after the fixed header and in
the order of the entries. -/
theorem list_coins_one_line_per_entry (net : String → FetchResult)
    (b : Json) (coins : List Coin)
    (hb : net coinsUrl = FetchResult.ok b)
    (hd : decodeCoinList b = Except.ok coins) :
    (list_coins net).lines =
      listHeader ++ coins.map (fun c => OutLine.text (fmtCoinLine c)) ∧
    (list_coins net).lines.length = listHeader.length + coins.length := by
  have h : list_coins net =
      ⟨[coinsUrl], listHeader ++ coins.map (fun c => OutLine.text (fmtCoinLine c)),
       none⟩ := by
    simp only [list_coins, hb, hd]
  rw [h]
  simp

/-- Witness for C5 at a concrete two-coin list body. -/
theorem list_coins_one_line_per_entry_witness :
    (list_coins netList).lines =
      listHeader ++
        [(⟨"btc-bitcoin", "Bitcoin", "BTC", 1⟩ : Coin),
         (⟨"eth-ethereum", "Ethereum", "ETH", 2⟩ : Coin)].map
          (fun c => OutLine.text (fmtCoinLine c)) ∧
    (list_coins netList).lines.length =
      listHeader.length +
        [(⟨"btc-bitcoin", "Bitcoin", "BTC", 1⟩ : Coin),
         (⟨"eth-ethereum", "Ethereum", "ETH", 2⟩ : Coin)].length :=
  list_coins_one_line_per_entry netList coinsBodyW
    [⟨"btc-bitcoin", "Bitcoin", "BTC", 1⟩, ⟨"eth-ethereum", "Ethereum", "ETH", 2⟩]
    rfl rfl

/-- C6: on every endpoint, a body whose shape does not match the
expected record fails the command with a decode error and prints no
line of the record (no partial output): the handler returns exactly the
decode failure with an empty line list. -/
theorem decode_failure_no_partial_output (net : String → FetchResult) :
    (∀ b e, net coinsUrl = FetchResult.ok b →
       decodeCoinList b = Except.error e →
       list_coins net = ⟨[coinsUrl], [], some (CliError.decodeFailure e)⟩) ∧
    (∀ coin_id b e, net (coinUrl coin_id) = FetchResult.ok b →
       decodeCoinDetail b = Except.error e →
       get_coin_details net coin_id =
         ⟨[coinUrl coin_id], [], some (CliError.decodeFailure e)⟩) ∧
    (∀ coin_id cur b e, net (tickerUrl coin_id) = FetchResult.ok b →
       decodeTicker b = Except.error e →
       get_coin_price net coin_id cur =
         ⟨[tickerUrl coin_id], [], some (CliError.decodeFailure e)⟩) ∧
    (∀ coin1_id coin2_id cur b e, net (tickerUrl coin1_id) = FetchResult.ok b →
       decodeTicker b = Except.error e →
       compare_coin_prices net coin1_id coin2_id cur =
         ⟨[tickerUrl coin1_id], [], some (CliError.decodeFailure e)⟩) := by
  refine ⟨?_, ?_, ?_, ?_⟩
  · intro b e hb he
    simp only [list_coins, hb, he]
  · intro coin_id b e hb he
    simp only [get_coin_details, hb, he]
  · intro coin_id cur b e hb he
    simp only [get_coin_price, hb, he]
  · intro coin1_id coin2_id cur b e hb he
    have h : get_coin_price_value net coin1_id cur =
        ([tickerUrl coin1_id], Except.error (CliError.decodeFailure e)) := by
      simp only [get_coin_price_value, hb, he]
    exact compare_err1 net coin1_id coin2_id cur _ _ h

/-- Witness for C6: a record missing the required `rank` field fails
all four endpoints with a decode error and no printed lines. -/
theorem decode_failure_no_partial_output_witness :
    list_coins netBad =
      ⟨[coinsUrl], [], some (CliError.decodeFailure "missing field rank")⟩ ∧
    get_coin_details netBad "btc-bitcoin" =
      ⟨[coinUrl "btc-bitcoin"], [], some (CliError.decodeFailure "missing field rank")⟩ ∧
    get_coin_price netBad "btc-bitcoin" "usd" =
      ⟨[tickerUrl "btc-bitcoin"], [], some (CliError.decodeFailure "missing field rank")⟩ ∧
    compare_coin_prices netBad "btc-bitcoin" "eth-ethereum" "usd" =
      ⟨[tickerUrl "btc-bitcoin"], [], some (CliError.decodeFailure "missing field rank")⟩ :=
  ⟨(decode_failure_no_partial_output netBad).1 (Json.arr [coinNoRankJson])
      "missing field rank" rfl rfl,
   (decode_failure_no_partial_output netBad).2.1 "btc-bitcoin" coinNoRankJson
      "missing field rank" rfl rfl,
   (decode_failure_no_partial_output netBad).2.2.1 "btc-bitcoin" "usd" coinNoRankJson
      "missing field rank" rfl rfl,
   (decode_failure_no_partial_output netBad).2.2.2 "btc-bitcoin" "eth-ethereum" "usd"
      coinNoRankJson "missing field rank" rfl rfl⟩

/-- C2: for CoinPrice, when the uppercased currency is absent from the
decoded ticker quotes, the not-found message is printed and the command
still exits 0; when it is present, the quote price line is printed
(also exiting 0). -/
theorem coin_price_soft_missing (net : String → FetchResult)
    (coin_id target_currency : String) (b : Json) (t : TickerResponse)
    (hb : net (tickerUrl coin_id) = FetchResult.ok b)
    (ht : decodeTicker b = Except.ok t) :
    (hmGet t.quotes (to_uppercase target_currency) = none →
       OutLine.priceNotFound t.name (to_uppercase target_currency) ∈
         (get_coin_price net coin_id target_currency).lines ∧
       exitCode (get_coin_price net coin_id target_currency) = 0) ∧
    (∀ q, hmGet t.quotes (to_uppercase target_currency) = some q →
       OutLine.priceIs t.name t.symbol q.price (to_uppercase target_currency) ∈
         (get_coin_price net coin_id target_currency).lines ∧
       exitCode (get_coin_price net coin_id target_currency) = 0) := by
  constructor
  · intro hq
    have h : get_coin_price net coin_id target_currency =
        ⟨[tickerUrl coin_id],
         [OutLine.text "\n=======================================",
          OutLine.priceFor t.name t.symbol (to_uppercase target_currency),
          OutLine.text "=======================================\n",
          OutLine.priceNotFound t.name (to_uppercase target_currency)],
         none⟩ := by
      simp only [get_coin_price, hb, ht, hq, List.cons_append, List.nil_append]
    rw [h]
    simp [exitCode]
  · intro q hq
    have h : get_coin_price net coin_id target_currency =
        ⟨[tickerUrl coin_id],
         [OutLine.text "\n=======================================",
          OutLine.priceFor t.name t.symbol (to_uppercase target_currency),
          OutLine.text "=======================================\n",
          OutLine.priceIs t.name t.symbol q.price (to_uppercase target_currency)],
         none⟩ := by
      simp only [get_coin_price, hb, ht, hq, List.cons_append, List.nil_append]
    rw [h]
    simp [exitCode]

/-- Witness for C2: the bitcoin ticker has no EUR quote, so CoinPrice
in eur prints the not-found line and exits 0; in usd it prints the
price line and exits 0. -/
theorem coin_price_soft_missing_witness :
    (OutLine.priceNotFound "Bitcoin" "EUR" ∈
       (get_coin_price netBtc "btc-bitcoin" "eur").lines ∧
     exitCode (get_coin_price netBtc "btc-bitcoin" "eur") = 0) ∧
    (OutLine.priceIs "Bitcoin" "BTC" (F64.num 50000) "USD" ∈
       (get_coin_price netBtc "btc-bitcoin" "usd").lines ∧
     exitCode (get_coin_price netBtc "btc-bitcoin" "usd") = 0) :=
  ⟨(coin_price_soft_missing netBtc "btc-bitcoin" "eur" btcTickerJson btcTicker
      rfl rfl).1 rfl,
   (coin_price_soft_missing netBtc "btc-bitcoin" "usd" btcTickerJson btcTicker
      rfl rfl).2 ⟨F64.num 50000⟩ rfl⟩

/-- C4: in both CoinPrice and CompareCoins the price lookup key is the
uppercased user currency, so a quotes map holding an uppercase key X is
matched by any input equal to X up to case: CoinPrice prints the quote
bound to X, the CompareCoins lookup helper returns it, and a comparison
whose other lookup also succeeds prints it on the per-coin line. -/
theorem lookup_uses_uppercased_currency (net : String → FetchResult)
    (coin_id s X : String) (b : Json) (t : TickerResponse) (q : MarketQuote)
    (hX : to_uppercase X = X)
    (hs : to_uppercase s = to_uppercase X)
    (hb : net (tickerUrl coin_id) = FetchResult.ok b)
    (ht : decodeTicker b = Except.ok t)
    (hq : hmGet t.quotes X = some q) :
    OutLine.priceIs t.name t.symbol q.price X ∈
      (get_coin_price net coin_id s).lines ∧
    get_coin_price_value net coin_id s =
      ([tickerUrl coin_id], Except.ok q.price) ∧
    ∀ coin2_id r2 p2,
      get_coin_price_value net coin2_id s = (r2, Except.ok p2) →
      OutLine.coinPriceLine coin_id q.price X ∈
        (compare_coin_prices net coin_id coin2_id s).lines := by
  have hkey : to_uppercase s = X := by rw [hs, hX]
  have hgv : get_coin_price_value net coin_id s =
      ([tickerUrl coin_id], Except.ok q.price) := by
    simp only [get_coin_price_value, hb, ht, hkey, hq]
  refine ⟨?_, hgv, ?_⟩
  · have h : get_coin_price net coin_id s =
        ⟨[tickerUrl coin_id],
         [OutLine.text "\n=======================================",
          OutLine.priceFor t.name t.symbol X,
          OutLine.text "=======================================\n",
          OutLine.priceIs t.name t.symbol q.price X],
         none⟩ := by
      simp only [get_coin_price, hb, ht, hkey, hq, List.cons_append, List.nil_append]
    rw [h]
    simp
  · intro coin2_id r2 p2 h2
    have hc := compare_ok net coin_id coin2_id s [tickerUrl coin_id] r2
      q.price p2 hgv h2
    rw [hc, hkey]
    simp

/-- Witness for C4 at the example of the spec: quotes containing
`USD ↦ 50000` and currency argument `usd` print the 50000 price line in
CoinPrice, make the CompareCoins lookup return 50000, and put 50000 on
the comparison per-coin line against ethereum. -/
theorem lookup_uses_uppercased_currency_witness :
    OutLine.priceIs "Bitcoin" "BTC" (F64.num 50000) "USD" ∈
      (get_coin_price netPair "btc-bitcoin" "usd").lines ∧
    get_coin_price_value netPair "btc-bitcoin" "usd" =
      ([tickerUrl "btc-bitcoin"], Except.ok (F64.num 50000)) ∧
    OutLine.coinPriceLine "btc-bitcoin" (F64.num 50000) "USD" ∈
      (compare_coin_prices netPair "btc-bitcoin" "eth-ethereum" "usd").lines :=
  ⟨(lookup_uses_uppercased_currency netPair "btc-bitcoin" "usd" "USD"
      btcTickerJson btcTicker ⟨F64.num 50000⟩ rfl rfl rfl rfl rfl).1,
   (lookup_uses_uppercased_currency netPair "btc-bitcoin" "usd" "USD"
      btcTickerJson btcTicker ⟨F64.num 50000⟩ rfl rfl rfl rfl rfl).2.1,
   (lookup_uses_uppercased_currency netPair "btc-bitcoin" "usd" "USD"
      btcTickerJson btcTicker ⟨F64.num 50000⟩ rfl rfl rfl rfl rfl).2.2
     "eth-ethereum" [tickerUrl "eth-ethereum"] (F64.num 3000) rfl⟩

/-- C1: for CompareCoins, when the uppercased currency is absent from
the quotes of either decodable ticker, the command exits non-zero and
prints neither per-coin comparison price line. -/
theorem compare_missing_currency_fatal (net : String → FetchResult)
    (coin1_id coin2_id target_currency : String)
    (h : currencyMissingFor net coin1_id target_currency ∨
         currencyMissingFor net coin2_id target_currency) :
    exitCode (compare_coin_prices net coin1_id coin2_id target_currency) ≠ 0 ∧
    ∀ i p k, OutLine.coinPriceLine i p k ∉
      (compare_coin_prices net coin1_id coin2_id target_currency).lines := by
  rcases h with h1 | h2
  · have hg := gv_of_missing net coin1_id target_currency h1
    have hc := compare_err1 net coin1_id coin2_id target_currency _ _ hg
    rw [hc]
    simp [exitCode]
  · rcases hgv : get_coin_price_value net coin1_id target_currency with ⟨r1, res1⟩
    cases res1 with
    | error e =>
      have hc := compare_err1 net coin1_id coin2_id target_currency r1 e hgv
      rw [hc]
      simp [exitCode]
    | ok p1 =>
      have hg2 := gv_of_missing net coin2_id target_currency h2
      have hc := compare_err2 net coin1_id coin2_id target_currency r1 _ p1 _ hgv hg2
      rw [hc]
      simp [exitCode]

/-- Witness for C1: the bitcoin ticker has no EUR quote, so comparing
in eur exits non-zero and prints no per-coin price line. -/
theorem compare_missing_currency_fatal_witness :
    exitCode (compare_coin_prices netBtc "btc-bitcoin" "eth-ethereum" "eur") ≠ 0 ∧
    OutLine.coinPriceLine "btc-bitcoin" (F64.num 50000) "EUR" ∉
      (compare_coin_prices netBtc "btc-bitcoin" "eth-ethereum" "eur").lines :=
  ⟨(compare_missing_currency_fatal netBtc "btc-bitcoin" "eth-ethereum" "eur"
      (Or.inl ⟨btcTickerJson, btcTicker, rfl, rfl, rfl⟩)).1,
   (compare_missing_currency_fatal netBtc "btc-bitcoin" "eth-ethereum" "eur"
      (Or.inl ⟨btcTickerJson, btcTicker, rfl, rfl, rfl⟩)).2
     "btc-bitcoin" (F64.num 50000) "EUR"⟩

/-- C8: in CompareCoins, a failure obtaining the first coin price
(transport, decode, or missing currency) aborts the command before the
second ticker request is issued: the request trace consists of the
first ticker URL only, nothing is printed, and the error propagates. -/
theorem compare_first_error_short_circuits (net : String → FetchResult)
    (coin1_id coin2_id target_currency : String) (r : List String) (e : CliError)
    (h : get_coin_price_value net coin1_id target_currency = (r, Except.error e)) :
    (compare_coin_prices net coin1_id coin2_id target_currency).requests =
      [tickerUrl coin1_id] ∧
    (compare_coin_prices net coin1_id coin2_id target_currency).lines = [] ∧
    (compare_coin_prices net coin1_id coin2_id target_currency).err = some e := by
  have hr : r = [tickerUrl coin1_id] := by
    have hq := gv_requests net coin1_id target_currency
    rw [h] at hq
    exact hq
  have hc := compare_err1 net coin1_id coin2_id target_currency r e h
  rw [hc, hr]
  simp

/-- Witness for C8: with the network down, the comparison issues only
the first ticker request. -/
theorem compare_first_error_short_circuits_witness :
    (compare_coin_prices netDown "btc-bitcoin" "eth-ethereum" "usd").requests =
      [tickerUrl "btc-bitcoin"] ∧
    (compare_coin_prices netDown "btc-bitcoin" "eth-ethereum" "usd").lines = [] ∧
    (compare_coin_prices netDown "btc-bitcoin" "eth-ethereum" "usd").err =
      some CliError.transportFailure :=
  compare_first_error_short_circuits netDown "btc-bitcoin" "eth-ethereum" "usd"
    [tickerUrl "btc-bitcoin"] CliError.transportFailure rfl

/-- C7: the request trace of CompareCoins is sequential: the first coin
ticker URL is requested first, and the second is requested exactly when
the first price lookup has completed successfully (so it is issued only
after the first request completed, never alongside it). -/
theorem compare_requests_sequential (net : String → FetchResult)
    (coin1_id coin2_id target_currency : String) :
    (compare_coin_prices net coin1_id coin2_id target_currency).requests =
      tickerUrl coin1_id ::
        (match (get_coin_price_value net coin1_id target_currency).2 with
         | Except.ok _ => [tickerUrl coin2_id]
         | Except.error _ => []) := by
  rcases h1 : get_coin_price_value net coin1_id target_currency with ⟨r1, res1⟩
  have hr1 : r1 = [tickerUrl coin1_id] := by
    have hq := gv_requests net coin1_id target_currency
    rw [h1] at hq
    exact hq
  cases res1 with
  | error e =>
    have hc := compare_err1 net coin1_id coin2_id target_currency r1 e h1
    rw [hc, hr1]
  | ok p1 =>
    rcases h2 : get_coin_price_value net coin2_id target_currency with ⟨r2, res2⟩
    have hr2 : r2 = [tickerUrl coin2_id] := by
      have hq := gv_requests net coin2_id target_currency
      rw [h2] at hq
      exact hq
    cases res2 with
    | error e =>
      have hc := compare_err2 net coin1_id coin2_id target_currency r1 r2 p1 e h1 h2
      rw [hc, hr1, hr2]
      rfl
    | ok p2 =>
      have hc := compare_ok net coin1_id coin2_id target_currency r1 r2 p1 p2 h1 h2
      rw [hc, hr1, hr2]
      rfl

/-- C3: for numeric prices obtained by the two lookups of CompareCoins,
the coin with the strictly larger price is reported more valuable, and
equal prices print the same-value message exactly once. -/
theorem compare_reports_larger (net : String → FetchResult)
    (coin1_id coin2_id target_currency : String)
    (r1 r2 : List String) (q1 q2 : ℚ)
    (h1 : get_coin_price_value net coin1_id target_currency =
            (r1, Except.ok (F64.num q1)))
    (h2 : get_coin_price_value net coin2_id target_currency =
            (r2, Except.ok (F64.num q2))) :
    (q2 < q1 →
       OutLine.moreValuable coin1_id coin2_id (to_uppercase target_currency) ∈
         (compare_coin_prices net coin1_id coin2_id target_currency).lines) ∧
    (q1 < q2 →
       OutLine.moreValuable coin2_id coin1_id (to_uppercase target_currency) ∈
         (compare_coin_prices net coin1_id coin2_id target_currency).lines) ∧
    (q1 = q2 →
       ((compare_coin_prices net coin1_id coin2_id target_currency).lines).count
         (OutLine.sameValue coin1_id coin2_id (to_uppercase target_currency)) = 1) := by
  have hc := compare_ok net coin1_id coin2_id target_currency r1 r2
    (F64.num q1) (F64.num q2) h1 h2
  rw [hc]
  refine ⟨?_, ?_, ?_⟩
  · intro hlt
    simp [conclusionLine, F64.gt, hlt]
  · intro hlt
    have hnot : ¬ q2 < q1 := not_lt.mpr (le_of_lt hlt)
    simp [conclusionLine, F64.gt, F64.lt, hlt, hnot]
  · intro heq
    subst heq
    simp [conclusionLine, F64.gt, F64.lt, List.count_cons]

/-- Witness for C3: comparing btc at 50000 USD with eth at 3000 USD
reports btc more valuable; comparing a coin with itself prints the
same-value line exactly once. -/
theorem compare_reports_larger_witness :
    OutLine.moreValuable "btc-bitcoin" "eth-ethereum" "USD" ∈
      (compare_coin_prices netPair "btc-bitcoin" "eth-ethereum" "usd").lines ∧
    ((compare_coin_prices netBtc "btc-bitcoin" "btc-bitcoin" "usd").lines).count
      (OutLine.sameValue "btc-bitcoin" "btc-bitcoin" "USD") = 1 :=
  ⟨(compare_reports_larger netPair "btc-bitcoin" "eth-ethereum" "usd"
      [tickerUrl "btc-bitcoin"] [tickerUrl "eth-ethereum"] 50000 3000
      rfl rfl).1 (by norm_num),
   (compare_reports_larger netBtc "btc-bitcoin" "btc-bitcoin" "usd"
      [tickerUrl "btc-bitcoin"] [tickerUrl "btc-bitcoin"] 50000 50000
      rfl rfl).2.2 rfl⟩

/-- C9: whenever both prices were obtained, CompareCoins prints exactly
one conclusion message; and the three-way branch is total over all
`f64` pairs, `nan` included: it always yields one of the messages
(first more valuable, second more valuable, or same value). -/
theorem compare_conclusion_total :
    (∀ (net : String → FetchResult) (coin1_id coin2_id target_currency : String)
       (r1 r2 : List String) (p1 p2 : F64),
       get_coin_price_value net coin1_id target_currency = (r1, Except.ok p1) →
       get_coin_price_value net coin2_id target_currency = (r2, Except.ok p2) →
       ((compare_coin_prices net coin1_id coin2_id target_currency).lines).countP
         (fun l => isConclusion l) = 1) ∧
    (∀ (coin1_id coin2_id currency : String) (p1 p2 : F64),
       conclusionLine coin1_id coin2_id currency p1 p2 =
           OutLine.moreValuable coin1_id coin2_id currency ∨
       conclusionLine coin1_id coin2_id currency p1 p2 =
           OutLine.moreValuable coin2_id coin1_id currency ∨
       conclusionLine coin1_id coin2_id currency p1 p2 =
           OutLine.sameValue coin1_id coin2_id currency) := by
  constructor
  · intro net coin1_id coin2_id target_currency r1 r2 p1 p2 h1 h2
    have hc := compare_ok net coin1_id coin2_id target_currency r1 r2 p1 p2 h1 h2
    rw [hc]
    rcases conclusionLine_cases coin1_id coin2_id (to_uppercase target_currency) p1 p2
      with h | h | h <;> rw [h] <;> simp [List.countP_cons, isConclusion]
  · intro coin1_id coin2_id currency p1 p2
    exact conclusionLine_cases coin1_id coin2_id currency p1 p2

/-- Witness for C9: a successful concrete comparison prints one
conclusion, and the branch picks a message even for `nan` against a
number. -/
theorem compare_conclusion_total_witness :
    ((compare_coin_prices netPair "btc-bitcoin" "eth-ethereum" "usd").lines).countP
      (fun l => isConclusion l) = 1 ∧
    (conclusionLine "a" "b" "USD" F64.nan (F64.num 5) =
         OutLine.moreValuable "a" "b" "USD" ∨
     conclusionLine "a" "b" "USD" F64.nan (F64.num 5) =
         OutLine.moreValuable "b" "a" "USD" ∨
     conclusionLine "a" "b" "USD" F64.nan (F64.num 5) =
         OutLine.sameValue "a" "b" "USD") :=
  ⟨compare_conclusion_total.1 netPair "btc-bitcoin" "eth-ethereum" "usd"
     [tickerUrl "btc-bitcoin"] [tickerUrl "eth-ethereum"]
     (F64.num 50000) (F64.num 3000) rfl rfl,
   compare_conclusion_total.2 "a" "b" "USD" F64.nan (F64.num 5)⟩

/-- C10: the line printed for a coin by ListCoins is built from the
name, symbol and rank only — two coins agreeing on those three fields
print the same line whatever their ids — and the rendered line contains
the name, the symbol and the decimal rank. -/
theorem coin_line_has_no_id (c c' : Coin)
    (h1 : c.name = c'.name) (h2 : c.symbol = c'.symbol) (h3 : c.rank = c'.rank) :
    fmtCoinLine c = fmtCoinLine c' ∧
    infixOf c.name.data (fmtCoinLine c).data ∧
    infixOf c.symbol.data (fmtCoinLine c).data ∧
    infixOf (toString c.rank).data (fmtCoinLine c).data := by
  refine ⟨?_, ?_, ?_, ?_⟩
  · unfold fmtCoinLine
    rw [h1, h2, h3]
  · exact ⟨[], (" (" ++ c.symbol ++ ") - Rank: " ++ toString c.rank).data, by
      simp [fmtCoinLine, String.data_append]⟩
  · exact ⟨(c.name ++ " (").data, (") - Rank: " ++ toString c.rank).data, by
      simp [fmtCoinLine, String.data_append]⟩
  · exact ⟨(c.name ++ " (" ++ c.symbol ++ ") - Rank: ").data, [], by
      simp [fmtCoinLine, String.data_append]⟩

/-- Witness for C10: two coins differing only in id print the same
line, which contains name, symbol and rank. -/
theorem coin_line_has_no_id_witness :
    fmtCoinLine ⟨"btc-bitcoin", "Bitcoin", "BTC", 1⟩ =
      fmtCoinLine ⟨"other-id", "Bitcoin", "BTC", 1⟩ ∧
    infixOf "Bitcoin".data (fmtCoinLine ⟨"btc-bitcoin", "Bitcoin", "BTC", 1⟩).data ∧
    infixOf "BTC".data (fmtCoinLine ⟨"btc-bitcoin", "Bitcoin", "BTC", 1⟩).data ∧
    infixOf (toString (1 : Nat)).data
      (fmtCoinLine ⟨"btc-bitcoin", "Bitcoin", "BTC", 1⟩).data :=
  coin_line_has_no_id ⟨"btc-bitcoin", "Bitcoin", "BTC", 1⟩
    ⟨"other-id", "Bitcoin", "BTC", 1⟩ rfl rfl rfl
